import Mathlib

/-!
Verification development for the RD-RAG repository (three retrieval-augmented
generation pipeline variants).  The Python sources are shallowly embedded:

* Python strings are Lean `String`s; the string primitives the code uses
  (`str.strip`, `str.split`, `in`, `str.replace`, `str.startswith`, slicing)
  are modelled by structurally recursive functions over `String.data`
  (`List Char`) so that every definition evaluates inside the kernel.
* Python dicts (insertion ordered) are association lists `List (String × α)`,
  with `dictInsert` giving the insert-or-overwrite semantics of `d[k] = v`.
* Python float scores are modelled exactly in `ℚ` (the only arithmetic the
  code performs on them is `1.0 - i * 0.1`).
* Calls to external services (OpenAI, VoyageAI, FAISS) are oracles passed in
  as data: a `Bool` for "credential configured", response strings / outcomes
  for what the service would return, and `Except String` for paths on which
  the Python code can raise.
-/

/-! ### Models of the Python string primitives -/

/-- Whether the character list `p` is a prefix of `l` (`str.startswith`). -/
def listStartsWith : List Char → List Char → Bool
  | [], _ => true
  | _ :: _, [] => false
  | p :: ps, x :: xs => p == x && listStartsWith ps xs

/-- Python `str.strip()`: drop whitespace from both ends. -/
def pyStrip (l : List Char) : List Char :=
  ((l.dropWhile Char.isWhitespace).reverse.dropWhile Char.isWhitespace).reverse

/-- Python `s.split(c)` for a single-character separator: the list of
segments between occurrences of `c` (never empty, may contain `[]`). -/
def splitOnChar (c : Char) : List Char → List (List Char)
  | [] => [[]]
  | x :: xs =>
    match splitOnChar c xs with
    | [] => [[]]
    | h :: t => if x == c then [] :: h :: t else (x :: h) :: t

/-- Python `sub in s`: substring containment test. -/
def containsSub (p : List Char) : List Char → Bool
  | [] => listStartsWith p []
  | x :: xs => listStartsWith p (x :: xs) || containsSub p xs

/-- Everything after the first occurrence of `c` (Python `s.split(c, 1)[-1]`
when `c` occurs in `s`). -/
def afterFirstChar (c : Char) (l : List Char) : List Char :=
  (l.dropWhile (fun x => !(x == c))).tail

/-- Fuel-driven worker for `removeAll` (structural recursion on the fuel so
that the kernel can evaluate it). -/
def removeAllAux (p : List Char) : Nat → List Char → List Char
  | 0, l => l
  | _ + 1, [] => []
  | fuel + 1, x :: xs =>
    if listStartsWith p (x :: xs) then removeAllAux p fuel (xs.drop (p.length - 1))
    else x :: removeAllAux p fuel xs

/-- Python `s.replace(p, '')` for a non-empty pattern `p`: remove all
(non-overlapping, leftmost-first) occurrences of `p`. -/
def removeAll (p l : List Char) : List Char :=
  removeAllAux p l.length l

/-- Python `s.strip()` at the `String` level. -/
def pyStripS (s : String) : String := ⟨pyStrip s.data⟩

/-- Python `s.split('\n')` at the `String` level. -/
def linesOf (s : String) : List String :=
  (splitOnChar '\n' s.data).map (fun l => (⟨l⟩ : String))

/-- Python `'sep'.join(l)`. -/
def pyJoin (sep : String) : List String → String
  | [] => ""
  | [s] => s
  | s :: rest => s ++ sep ++ pyJoin sep rest

/-! ### Configuration constants (`rag_pipeline/config.py`) -/

def NUM_SUBQUERIES : Nat := 3
def TOP_N_INITIAL : Nat := 10
def TOP_K_RERANKED : Nat := 5

/-! ### `LLMUtils.generate_subqueries` (`rag_pipeline/llm_utils.py`, lines 55-107)

The OpenAI client is modelled by a `configured : Bool` flag plus the response
strings the two chat-completion calls would return. -/

/-- The keep condition of the first-tier line scan (llm_utils.py line 84-85):
`line and (line.startswith('-') or line.startswith('*') or ':' in line or
any(str(i) in line[:2] for i in range(1, 10)))`. -/
def tier1Keep (line : String) : Bool :=
  !(line == "") &&
    (listStartsWith ['-'] line.data || listStartsWith ['*'] line.data ||
      line.data.contains ':' ||
      (line.data.take 2).any fun c => decide (('1' : Char) ≤ c ∧ c ≤ '9'))

/-- The extraction step (llm_utils.py lines 87-88):
`parts = line.split(':', 1) if ':' in line else [line]; query = parts[-1].strip()`. -/
def tier1Extract (line : String) : String :=
  if line.data.contains ':' then ⟨pyStrip (afterFirstChar ':' line.data)⟩
  else ⟨pyStrip line.data⟩

/-- One iteration of the first-tier parsing loop (llm_utils.py lines 82-90). -/
def tier1Step (subqueries : List String) (rawLine : String) : List String :=
  let line : String := pyStripS rawLine
  if tier1Keep line then
    let query := tier1Extract line
    if query ≠ "" ∧ query ∉ subqueries then subqueries ++ [query] else subqueries
  else subqueries

/-- The first-tier parse of a generation response (llm_utils.py lines 81-90). -/
def subqueriesTier1Parse (text : String) : List String :=
  (linesOf text).foldl tier1Step []

/-- The second-tier (retry) parse (llm_utils.py lines 103-104):
`[line.replace('Query:', '').strip() for line in text.split('\n') if 'Query:' in line]`. -/
def subqueriesTier2Parse (text : String) : List String :=
  ((linesOf text).filter (fun line => containsSub "Query:".data line.data)).map
    (fun line => (⟨pyStrip (removeAll "Query:".data line.data)⟩ : String))

/-- `LLMUtils.generate_subqueries`.  `configured` is whether `OPENAI_API_KEY`
is set; `resp1` and `resp2` are the contents the two chat-completion calls
would return. -/
def generate_subqueries (configured : Bool) (resp1 resp2 rationales : String)
    (num_queries : Nat) : List String :=
  if !configured then [rationales]
  else
    let subqueries := subqueriesTier1Parse (pyStripS resp1)
    let subqueries :=
      if subqueries = [] ∨ subqueries.length < num_queries then
        subqueriesTier2Parse (pyStripS resp2)
      else subqueries
    subqueries.take num_queries

/-- `LLMUtils.extract_rationales` (llm_utils.py lines 29-53). -/
def extract_rationales (configured : Bool) (resp query : String) : String :=
  if !configured then query else pyStripS resp

/-- `LLMUtils.generate_response` (llm_utils.py lines 146-183); `resp` is the
content the chat-completion call would return. -/
def generate_response (configured : Bool) (resp : String) : String :=
  if !configured then
    "Error: OPENAI_API_KEY not set. Please set the environment variable to generate responses."
  else pyStripS resp

/-! ### `VoyageReranker.rerank` (`rag_pipeline/reranker.py` lines 22-69 and the
identical `rag_with_reranker/reranker.py` lines 21-59)

The Voyage client is a `configured : Bool` plus a `RerankOutcome` describing
what the service call would do.  An out-of-range index coming back from the
service would make `documents[result.index]` raise inside the `try` block,
which the `except Exception` clause turns into the same fallback — hence the
in-range guard on the service path below. -/

structure RankedDoc where
  index : Nat
  document : String
  relevance_score : ℚ
deriving DecidableEq

/-- What the external rerank service call does: raise, or return a list of
`(index, relevance_score)` results. -/
inductive RerankOutcome where
  | raises (msg : String)
  | returns (results : List (Nat × ℚ))
deriving DecidableEq

/-- The fallback comprehension
`[{"index": i, "document": doc, "relevance_score": 1.0 - (i * 0.1)} for i, doc
in enumerate(documents)]` with the enumeration counter threaded explicitly. -/
def fallbackFrom (i : Nat) : List String → List RankedDoc
  | [] => []
  | doc :: docs =>
    { index := i, document := doc, relevance_score := 1 - (i : ℚ) / 10 } :: fallbackFrom (i + 1) docs

/-- The reranker's fallback result (reranker.py lines 37-38 and 63-64). -/
def fallbackRerank (documents : List String) : List RankedDoc :=
  fallbackFrom 0 documents

/-- `VoyageReranker.rerank`. -/
def rerank (configured : Bool) (outcome : RerankOutcome) (query : String)
    (documents : List String) (top_k : Option Nat) : List RankedDoc :=
  if !configured then fallbackRerank documents
  else
    match outcome with
    | .raises _ => fallbackRerank documents
    | .returns results =>
      if results.all (fun r => decide (r.1 < documents.length)) then
        results.map (fun r =>
          { index := r.1, document := documents.getD r.1 "", relevance_score := r.2 })
      else fallbackRerank documents

/-! ### `LLMUtils.prepare_context` (`rag_pipeline/llm_utils.py` lines 109-144)

The Python dict `reranked_results` is an insertion-ordered association list;
the `seen_docs` set is a duplicate-free list of strings with exact-equality
membership. -/

structure CtxState where
  all_docs : List String
  seen_docs : List String
  chunk_counter : Nat
deriving DecidableEq

/-- The chunk label string `f"[Chunk {n}]:\n{doc_content}"`. -/
def mkChunkLabel (n : Nat) (doc_content : String) : String :=
  "[Chunk " ++ Nat.repr n ++ "]:\n" ++ doc_content

/-- The body of the inner loop of `prepare_context` (lines 131-139). -/
def addDoc (st : CtxState) (doc_content : String) : CtxState :=
  if doc_content ∈ st.seen_docs then st
  else
    { all_docs := st.all_docs ++ [mkChunkLabel st.chunk_counter doc_content],
      seen_docs := st.seen_docs ++ [doc_content],
      chunk_counter := st.chunk_counter + 1 }

/-- The two nested loops of `prepare_context`; `enumerate` plus
`if i >= top_k: break` is `List.take top_k`. -/
def prepareContextFold (reranked_results : List (String × List RankedDoc))
    (top_k : Nat) : CtxState :=
  reranked_results.foldl
    (fun st p => (p.2.take top_k).foldl (fun st doc_info => addDoc st doc_info.document) st)
    ⟨[], [], 1⟩

/-- The `all_docs` list accumulated by `prepare_context`. -/
def prepareContextBlocks (reranked_results : List (String × List RankedDoc))
    (top_k : Nat) : List String :=
  (prepareContextFold reranked_results top_k).all_docs

/-- `LLMUtils.prepare_context`: `"\n\n---\n\n".join(all_docs)`. -/
def prepare_context (reranked_results : List (String × List RankedDoc))
    (top_k : Nat) : String :=
  pyJoin "\n\n---\n\n" (prepareContextBlocks reranked_results top_k)

/-! ### `VectorStore` and `RDRagPipeline` (`rag_pipeline/vector_store.py`,
`rag_pipeline/pipeline.py`)

`Doc` models a langchain `Document` (`page_content` plus its `source`
metadata).  `PipelineEnv` packages the pipeline's constructor-time state:
which credentials are configured, whether `initialize` left an index in the
vector store, and oracles for every external round trip. -/

structure Doc where
  page_content : String
  source : String
deriving DecidableEq

structure PipelineEnv where
  openaiConfigured : Bool
  voyageConfigured : Bool
  indexLoaded : Bool
  retrieve : String → Nat → List Doc
  rationaleResp : String
  subqResp1 : String
  subqResp2 : String
  rerankOutcome : String → RerankOutcome
  genResp : String → String → String

/-- `VectorStore.search` (vector_store.py lines 50-56): raises `ValueError`
when no index is loaded. -/
def vsSearch (env : PipelineEnv) (query : String) (k : Nat) : Except String (List Doc) :=
  if env.indexLoaded then .ok (env.retrieve query k)
  else .error "No index to search. Create or load an index first."

/-- Python `d[k] = v` on an insertion-ordered dict. -/
def dictInsert {α : Type} (m : List (String × α)) (k : String) (v : α) :
    List (String × α) :=
  if m.any (fun p => p.1 == k) then m.map (fun p => if p.1 == k then (k, v) else p)
  else m ++ [(k, v)]

/-- The loop of `VectorStore.search_for_multiple_queries` (vector_store.py
lines 58-63), propagating the `ValueError` from `search`. -/
def searchManyAux (env : PipelineEnv) (k : Nat) :
    List String → List (String × List Doc) → Except String (List (String × List Doc))
  | [], results => .ok results
  | q :: qs, results =>
    match vsSearch env q k with
    | .error e => .error e
    | .ok docs => searchManyAux env k qs (dictInsert results q docs)

/-- `VectorStore.search_for_multiple_queries`. -/
def search_for_multiple_queries (env : PipelineEnv) (queries : List String)
    (k : Nat) : Except String (List (String × List Doc)) :=
  searchManyAux env k queries []

/-- `RDRagPipeline.format_results_for_reranker` (pipeline.py lines 66-79). -/
def format_results_for_reranker (results : List (String × List Doc)) :
    List (String × List String) :=
  results.map (fun p => (p.1, p.2.map Doc.page_content))

/-- `VoyageReranker.rerank_for_multiple_queries` (reranker.py lines 71-86). -/
def rerank_for_multiple_queries (env : PipelineEnv)
    (queries_docs : List (String × List String)) (top_k : Option Nat) :
    List (String × List RankedDoc) :=
  queries_docs.foldl
    (fun results p =>
      dictInsert results p.1 (rerank env.voyageConfigured (env.rerankOutcome p.1) p.1 p.2 top_k))
    []

/-- `RDRagPipeline.process_query` (pipeline.py lines 81-124).  The only step
that can raise is the vector search; every other step is a total function of
the environment. -/
def process_query (env : PipelineEnv) (query : String) : Except String String :=
  let rationales := extract_rationales env.openaiConfigured env.rationaleResp query
  let subqueries :=
    generate_subqueries env.openaiConfigured env.subqResp1 env.subqResp2 rationales NUM_SUBQUERIES
  match search_for_multiple_queries env subqueries TOP_N_INITIAL with
  | .error e => .error e
  | .ok initial_results =>
    let formatted_results := format_results_for_reranker initial_results
    let reranked_results := rerank_for_multiple_queries env formatted_results none
    let context := prepare_context reranked_results TOP_K_RERANKED
    .ok (generate_response env.openaiConfigured (env.genResp query context))

/-! ### `RAGWithRerankerPipeline.process_query` (`rag_with_reranker/pipeline.py`
lines 49-87)

`gen` stands for this variant's `LLMUtils.generate_response` (its
`llm_utils.py` module is not part of the sources at hand; per the spec it
flattens `{document, source}` records and never raises, but here it is left
abstract because no claim depends on its output).  The zero-chunks guard at
lines 59-60 returns an error *string*, it does not raise. -/

structure CtxDoc where
  document : String
  source : String
deriving DecidableEq

def rwrProcessQuery (gen : String → List CtxDoc → String) (all_chunks : List Doc)
    (voyageConfigured : Bool) (outcome : RerankOutcome) (query : String) :
    Except String String :=
  if all_chunks = [] then
    .ok "Error: No documents have been processed. Please initialize the pipeline."
  else
    let doc_texts := all_chunks.map Doc.page_content
    let reranked_results := rerank voyageConfigured outcome query doc_texts (some TOP_K_RERANKED)
    let context_docs :=
      reranked_results.map
        (fun r => CtxDoc.mk r.document ((all_chunks.getD r.index ⟨"", ""⟩).source))
    .ok (gen query context_docs)

/-! ### `RDRagPipeline.initialize` (`rag_pipeline/pipeline.py` lines 34-64)

Modelled as the trace of externally visible steps it performs.  `indexOnDisk`
is whether a persisted index directory exists, `loadOk` whether loading it
would succeed (`VectorStore.load_index` returns `False` both when the path is
absent and when loading raises), and `docs` the documents ingestion would
yield (from the whole directory or the single named file). -/

inductive BuildStep where
  | deletedIndex
  | loadedIndex
  | ingested
  | createdIndex
  | savedIndex
deriving DecidableEq

def pipelineInitTrace (reinit indexOnDisk loadOk : Bool) (docs : List Doc) :
    List BuildStep :=
  let deleted := reinit && indexOnDisk
  let existsAfter := indexOnDisk && !deleted
  (if deleted then [BuildStep.deletedIndex] else []) ++
    (if existsAfter && loadOk then [BuildStep.loadedIndex]
     else
       BuildStep.ingested ::
         (if docs = [] then [] else [BuildStep.createdIndex, BuildStep.savedIndex]))

/-! ### Specification-side definitions

These restate parts of the spec's wording so that the code-derived functions
above can be compared against them. -/

/-- Insert a text into the seen list if it is new (first occurrence kept). -/
def insertSeen (seen : List String) (t : String) : List String :=
  if t ∈ seen then seen else seen ++ [t]

/-- The first-occurrence deduplication of a list of texts. -/
def firstDedup (ts : List String) : List String :=
  ts.foldl insertSeen []

/-- Label a list of deduplicated texts with sequential chunk numbers
starting at `n`. -/
def labelFrom (n : Nat) : List String → List String
  | [] => []
  | t :: ts => mkChunkLabel n t :: labelFrom (n + 1) ts

/-- The position of the first occurrence of `t` in `us` (length of `us` if
absent). -/
def firstIdx (t : String) : List String → Nat
  | [] => 0
  | u :: us => if u = t then 0 else firstIdx t us + 1

/-- The sequence of fragment texts `prepare_context` walks over: per query,
the `document` fields of the first `top_k` entries, in mapping order. -/
def flatTexts (top_k : Nat) : List (String × List RankedDoc) → List String
  | [] => []
  | p :: rest => (p.2.take top_k).map RankedDoc.document ++ flatTexts top_k rest

/-- All fragment texts of the mapping (no per-query truncation). -/
def allTexts : List (String × List RankedDoc) → List String
  | [] => []
  | p :: rest => p.2.map RankedDoc.document ++ allTexts rest

/-- Per-list truncation then concatenation, on bare text lists. -/
def takeJoin (k : Nat) : List (List String) → List String
  | [] => []
  | l :: ls => l.take k ++ takeJoin k ls

/-- The keep condition of claim C5 / spec §4.1, read literally: a line "looks
like a list item" when it has a leading `-`, a leading `*`, a *leading digit*,
or contains a `:` separator. -/
def claimListItem (line : String) : Bool :=
  listStartsWith ['-'] line.data || listStartsWith ['*'] line.data ||
    (match line.data with
     | [] => false
     | c :: _ => c.isDigit) ||
    line.data.contains ':'

/-- The extraction of claim C5, read literally: the text after the *last*
`:`, stripped. -/
def afterLastColonTrim (line : String) : String :=
  ⟨pyStrip ((line.data.reverse.takeWhile (fun c => !(c == ':'))).reverse)⟩

/-- The first-tier parse restated declaratively: strip every line, keep the
lines passing the code's keep condition, extract per `tier1Extract`, drop
empties, and deduplicate keeping first occurrences. -/
def tier1ParseModel (text : String) : List String :=
  firstDedup
    (((((linesOf text).map pyStripS).filter tier1Keep).map tier1Extract).filter
      (fun q => !(q == "")))

/-! ### Helper lemmas: first-occurrence deduplication -/

lemma mem_insertSeen {seen : List String} {t x : String} :
    x ∈ insertSeen seen t ↔ x ∈ seen ∨ x = t := by
  unfold insertSeen
  by_cases h : t ∈ seen
  · simp only [if_pos h]
    constructor
    · exact fun hx => Or.inl hx
    · rintro (hx | rfl) <;> [exact hx; exact h]
  · simp [if_neg h]

lemma mem_foldl_insertSeen (ts : List String) :
    ∀ (seen : List String) (x : String),
      x ∈ ts.foldl insertSeen seen ↔ x ∈ seen ∨ x ∈ ts := by
  induction ts with
  | nil => intro seen x; simp
  | cons t ts ih =>
    intro seen x
    simp only [List.foldl_cons, ih, mem_insertSeen, List.mem_cons]
    tauto

lemma nodup_foldl_insertSeen (ts : List String) :
    ∀ seen : List String, seen.Nodup → (ts.foldl insertSeen seen).Nodup := by
  induction ts with
  | nil => intro seen h; simpa using h
  | cons t ts ih =>
    intro seen h
    refine ih _ ?_
    unfold insertSeen
    by_cases ht : t ∈ seen
    · simpa [if_pos ht] using h
    · simp [if_neg ht, List.nodup_append, h, ht]

lemma length_foldl_insertSeen_le (ts : List String) :
    ∀ seen : List String, (ts.foldl insertSeen seen).length ≤ seen.length + ts.length := by
  induction ts with
  | nil => intro seen; simp
  | cons t ts ih =>
    intro seen
    refine le_trans (ih _) ?_
    unfold insertSeen
    by_cases ht : t ∈ seen
    · simp only [if_pos ht, List.length_cons]; omega
    · simp only [if_neg ht, List.length_append, List.length_cons, List.length_nil]; omega

lemma mem_firstDedup {ts : List String} {x : String} :
    x ∈ firstDedup ts ↔ x ∈ ts := by
  unfold firstDedup
  rw [mem_foldl_insertSeen]
  simp

lemma nodup_firstDedup (ts : List String) : (firstDedup ts).Nodup :=
  nodup_foldl_insertSeen ts [] List.nodup_nil

lemma length_firstDedup_le (ts : List String) :
    (firstDedup ts).length ≤ ts.length := by
  have := length_foldl_insertSeen_le ts []
  simpa [firstDedup] using this

lemma toFinset_firstDedup (ts : List String) :
    (firstDedup ts).toFinset = ts.toFinset := by
  ext x
  simp [List.mem_toFinset, mem_firstDedup]

/-! ### Helper lemmas: chunk labels

`mkChunkLabel n t = "[Chunk " ++ digits ++ "]:\n" ++ t` where `digits` holds
only decimal digits; since `']'` is not a digit, the content `t` can be
recovered from the label. -/

lemma digitChar_isDigit {n : Nat} (h : n < 10) : (Nat.digitChar n).isDigit = true := by
  interval_cases n <;> decide

lemma toDigitsCore_isDigit (fuel : Nat) :
    ∀ (n : Nat) (ds : List Char), (∀ c ∈ ds, c.isDigit = true) →
      ∀ c ∈ Nat.toDigitsCore 10 fuel n ds, c.isDigit = true := by
  induction fuel with
  | zero =>
    intro n ds hds c hc
    exact hds c (by simpa [Nat.toDigitsCore] using hc)
  | succ fuel ih =>
    intro n ds hds c hc
    rw [Nat.toDigitsCore] at hc
    have hdig : ∀ c ∈ Nat.digitChar (n % 10) :: ds, c.isDigit = true := by
      intro c hc
      rcases List.mem_cons.mp hc with rfl | hc
      · exact digitChar_isDigit (Nat.mod_lt _ (by norm_num))
      · exact hds c hc
    by_cases hz : n / 10 = 0
    · rw [if_pos hz] at hc
      exact hdig c hc
    · rw [if_neg hz] at hc
      exact ih _ _ hdig c hc

lemma repr_data_isDigit (n : Nat) : ∀ c ∈ (Nat.repr n).data, c.isDigit = true := by
  intro c hc
  refine toDigitsCore_isDigit (n + 1) n [] (by simp) c ?_
  simpa [Nat.repr, Nat.toDigits, List.asString] using hc

lemma sep_split :
    ∀ (a₁ a₂ t₁ t₂ : List Char),
      (∀ c ∈ a₁, c.isDigit = true) → (∀ c ∈ a₂, c.isDigit = true) →
      a₁ ++ ']' :: t₁ = a₂ ++ ']' :: t₂ → a₁ = a₂ ∧ t₁ = t₂ := by
  intro a₁
  induction a₁ with
  | nil =>
    intro a₂ t₁ t₂ _ h₂ heq
    cases a₂ with
    | nil => simpa using heq
    | cons b bs =>
      exfalso
      simp only [List.nil_append, List.cons_append, List.cons.injEq] at heq
      have hb := h₂ b (List.mem_cons_self b bs)
      rw [← heq.1] at hb
      exact absurd hb (by decide)
  | cons a as ih =>
    intro a₂ t₁ t₂ h₁ h₂ heq
    cases a₂ with
    | nil =>
      exfalso
      simp only [List.cons_append, List.nil_append, List.cons.injEq] at heq
      have ha := h₁ a (List.mem_cons_self a as)
      rw [heq.1] at ha
      exact absurd ha (by decide)
    | cons b bs =>
      simp only [List.cons_append, List.cons.injEq] at heq
      obtain ⟨rfl, htl⟩ := heq
      obtain ⟨h₃, h₄⟩ :=
        ih bs t₁ t₂ (fun c hc => h₁ c (List.mem_cons_of_mem _ hc))
          (fun c hc => h₂ c (List.mem_cons_of_mem _ hc)) htl
      exact ⟨by rw [h₃], h₄⟩

lemma mkChunkLabel_content_eq {n m : Nat} {t u : String}
    (h : mkChunkLabel n t = mkChunkLabel m u) : t = u := by
  have hd := congrArg String.data h
  have hsep : ("]:\n" : String).data = [']', ':', '\n'] := rfl
  simp only [mkChunkLabel, String.data_append, hsep, List.append_assoc,
    List.cons_append, List.nil_append, List.cons.injEq] at hd
  obtain ⟨-, -, -, -, -, -, -, hd'⟩ := hd
  obtain ⟨-, h₂⟩ :=
    sep_split _ _ _ _ (repr_data_isDigit n) (repr_data_isDigit m) hd'
  simp only [List.cons.injEq] at h₂
  exact String.ext h₂.2.2

/-! ### Helper lemmas: `labelFrom` -/

lemma labelFrom_length : ∀ (us : List String) (k : Nat), (labelFrom k us).length = us.length := by
  intro us
  induction us with
  | nil => intro k; rfl
  | cons u us ih => intro k; simp [labelFrom, ih]

lemma labelFrom_append :
    ∀ (xs : List String) (t : String) (k : Nat),
      labelFrom k (xs ++ [t]) = labelFrom k xs ++ [mkChunkLabel (k + xs.length) t] := by
  intro xs
  induction xs with
  | nil => intro t k; simp [labelFrom]
  | cons x xs ih =>
    intro t k
    have harith : (k + 1) + xs.length = k + (xs.length + 1) := by omega
    calc labelFrom k ((x :: xs) ++ [t])
        = mkChunkLabel k x :: labelFrom (k + 1) (xs ++ [t]) := rfl
      _ = mkChunkLabel k x ::
            (labelFrom (k + 1) xs ++ [mkChunkLabel ((k + 1) + xs.length) t]) := by rw [ih]
      _ = labelFrom k (x :: xs) ++ [mkChunkLabel (k + (x :: xs).length) t] := by
            rw [harith]; rfl

lemma labelFrom_mem_content :
    ∀ (us : List String) (k m : Nat) (t : String),
      mkChunkLabel m t ∈ labelFrom k us → t ∈ us := by
  intro us
  induction us with
  | nil => intro k m t h; simp [labelFrom] at h
  | cons u us ih =>
    intro k m t h
    rcases List.mem_cons.mp h with heq | h
    · exact (mkChunkLabel_content_eq heq) ▸ List.mem_cons_self u us
    · exact List.mem_cons_of_mem _ (ih (k + 1) m t h)

lemma labelFrom_count_zero :
    ∀ (us : List String) (k m : Nat) (t : String),
      t ∉ us → (labelFrom k us).count (mkChunkLabel m t) = 0 := by
  intro us k m t ht
  rw [List.count_eq_zero]
  intro hmem
  exact ht (labelFrom_mem_content us k m t hmem)

lemma labelFrom_count_one :
    ∀ (us : List String) (k : Nat) (t : String), us.Nodup → t ∈ us →
      (labelFrom k us).count (mkChunkLabel (k + firstIdx t us) t) = 1 := by
  intro us
  induction us with
  | nil => intro k t _ ht; simp at ht
  | cons u us ih =>
    intro k t hnd ht
    obtain ⟨hu, hnd'⟩ := List.nodup_cons.mp hnd
    by_cases heq : u = t
    · subst heq
      have hidx : firstIdx u (u :: us) = 0 := by simp [firstIdx]
      rw [hidx, Nat.add_zero]
      show List.count (mkChunkLabel k u) (mkChunkLabel k u :: labelFrom (k + 1) us) = 1
      rw [List.count_cons_self, labelFrom_count_zero us (k + 1) k u hu]
    · have ht' : t ∈ us := by
        rcases List.mem_cons.mp ht with rfl | ht'
        · exact absurd rfl heq
        · exact ht'
      have hidx : firstIdx t (u :: us) = firstIdx t us + 1 := by simp [firstIdx, heq]
      rw [hidx]
      have harith : k + (firstIdx t us + 1) = (k + 1) + firstIdx t us := by omega
      rw [harith]
      have hne2 : mkChunkLabel ((k + 1) + firstIdx t us) t ≠ mkChunkLabel k u :=
        fun hcon => heq (mkChunkLabel_content_eq hcon).symm
      show List.count (mkChunkLabel ((k + 1) + firstIdx t us) t)
          (mkChunkLabel k u :: labelFrom (k + 1) us) = 1
      rw [List.count_cons_of_ne hne2, ih (k + 1) t hnd' ht']

lemma labelFrom_mem_eq :
    ∀ (us : List String) (k m : Nat) (t : String), us.Nodup →
      mkChunkLabel m t ∈ labelFrom k us →
      mkChunkLabel m t = mkChunkLabel (k + firstIdx t us) t := by
  intro us
  induction us with
  | nil => intro k m t _ h; simp [labelFrom] at h
  | cons u us ih =>
    intro k m t hnd h
    obtain ⟨hu, hnd'⟩ := List.nodup_cons.mp hnd
    rcases List.mem_cons.mp h with heq | h
    · have hc := mkChunkLabel_content_eq heq
      subst hc
      have hidx : firstIdx t (t :: us) = 0 := by simp [firstIdx]
      rw [hidx, Nat.add_zero]
      exact heq
    · have ht' : t ∈ us := labelFrom_mem_content us (k + 1) m t h
      have hne : u ≠ t := fun hcon => hu (hcon ▸ ht')
      have hidx : firstIdx t (u :: us) = firstIdx t us + 1 := by simp [firstIdx, hne]
      rw [hidx]
      have harith : k + (firstIdx t us + 1) = (k + 1) + firstIdx t us := by omega
      rw [harith]
      exact ih (k + 1) m t hnd' h

/-! ### Helper lemmas: `prepare_context` is first-occurrence dedup + labelling -/

lemma foldl_addDoc_eq (ts : List String) :
    ∀ seen : List String,
      ts.foldl addDoc ⟨labelFrom 1 seen, seen, seen.length + 1⟩ =
        ⟨labelFrom 1 (ts.foldl insertSeen seen), ts.foldl insertSeen seen,
          (ts.foldl insertSeen seen).length + 1⟩ := by
  induction ts with
  | nil => intro seen; rfl
  | cons t ts ih =>
    intro seen
    simp only [List.foldl_cons]
    by_cases ht : t ∈ seen
    · have h1 : addDoc ⟨labelFrom 1 seen, seen, seen.length + 1⟩ t =
          ⟨labelFrom 1 seen, seen, seen.length + 1⟩ := by
        simp [addDoc, ht]
      have h2 : insertSeen seen t = seen := by simp [insertSeen, ht]
      rw [h1, h2, ih seen]
    · have hlab := labelFrom_append seen t 1
      have h1 : addDoc ⟨labelFrom 1 seen, seen, seen.length + 1⟩ t =
          ⟨labelFrom 1 (seen ++ [t]), seen ++ [t], (seen ++ [t]).length + 1⟩ := by
        simp only [addDoc]
        rw [if_neg ht, hlab]
        have h1' : (1 : Nat) + seen.length = seen.length + 1 := by omega
        have h2' : (seen ++ [t]).length = seen.length + 1 := by simp
        rw [h1', h2']
      have h2 : insertSeen seen t = seen ++ [t] := by simp [insertSeen, ht]
      rw [h1, h2]
      exact ih (seen ++ [t])

lemma prepareContextFold_flatten (top_k : Nat) :
    ∀ (reranked : List (String × List RankedDoc)) (st : CtxState),
      reranked.foldl
          (fun st p => (p.2.take top_k).foldl (fun st doc_info => addDoc st doc_info.document) st)
          st =
        (flatTexts top_k reranked).foldl addDoc st := by
  intro reranked
  induction reranked with
  | nil => intro st; rfl
  | cons p rest ih =>
    intro st
    simp only [List.foldl_cons, flatTexts, List.foldl_append]
    rw [ih]
    congr 1
    rw [List.foldl_map]

lemma prepareContextBlocks_eq (reranked : List (String × List RankedDoc)) (top_k : Nat) :
    prepareContextBlocks reranked top_k = labelFrom 1 (firstDedup (flatTexts top_k reranked)) := by
  unfold prepareContextBlocks prepareContextFold
  rw [prepareContextFold_flatten]
  have h0 : (⟨[], [], 1⟩ : CtxState) =
      ⟨labelFrom 1 [], [], List.length ([] : List String) + 1⟩ := rfl
  rw [h0, foldl_addDoc_eq]
  rfl

/-! ### Helper lemmas: `flatTexts` -/

lemma mem_flatTexts_of_mem (top_k : Nat) (t : String) :
    ∀ (reranked : List (String × List RankedDoc)) (q : String) (rs : List RankedDoc),
      (q, rs) ∈ reranked → t ∈ (rs.take top_k).map RankedDoc.document →
      t ∈ flatTexts top_k reranked := by
  intro reranked
  induction reranked with
  | nil => intro q rs h _; simp at h
  | cons p rest ih =>
    intro q rs h ht
    rcases List.mem_cons.mp h with rfl | h
    · exact List.mem_append.mpr (Or.inl ht)
    · exact List.mem_append.mpr (Or.inr (ih q rs h ht))

lemma mem_allTexts_of_mem_flatTexts (top_k : Nat) (t : String) :
    ∀ reranked : List (String × List RankedDoc),
      t ∈ flatTexts top_k reranked → t ∈ allTexts reranked := by
  intro reranked
  induction reranked with
  | nil => intro h; simp [flatTexts] at h
  | cons p rest ih =>
    intro h
    rcases List.mem_append.mp h with h | h
    · obtain ⟨d, hd, rfl⟩ := List.mem_map.mp h
      exact List.mem_append.mpr
        (Or.inl (List.mem_map.mpr ⟨d, List.take_subset top_k p.2 hd, rfl⟩))
    · exact List.mem_append.mpr (Or.inr (ih h))

lemma flatTexts_length_le (top_k : Nat) :
    ∀ reranked : List (String × List RankedDoc),
      (flatTexts top_k reranked).length ≤ reranked.length * top_k := by
  intro reranked
  induction reranked with
  | nil => simp [flatTexts]
  | cons p rest ih =>
    have hseg : ((p.2.take top_k).map RankedDoc.document).length ≤ top_k := by
      rw [List.length_map, List.length_take]
      omega
    simp only [flatTexts, List.length_append, List.length_cons, Nat.succ_mul]
    omega

lemma flatTexts_eq_takeJoin (top_k : Nat) :
    ∀ reranked : List (String × List RankedDoc),
      flatTexts top_k reranked =
        takeJoin top_k (reranked.map (fun p => p.2.map RankedDoc.document)) := by
  intro reranked
  induction reranked with
  | nil => rfl
  | cons p rest ih =>
    simp only [flatTexts, List.map_cons, takeJoin, ih, List.map_take]

/-! ### Helper lemmas: the rerank fallback -/

lemma fallbackFrom_length :
    ∀ (docs : List String) (i : Nat), (fallbackFrom i docs).length = docs.length := by
  intro docs
  induction docs with
  | nil => intro i; rfl
  | cons x docs ih => intro i; simp [fallbackFrom, ih]

lemma fallbackRerank_length (documents : List String) :
    (fallbackRerank documents).length = documents.length :=
  fallbackFrom_length documents 0

lemma fallbackFrom_getD :
    ∀ (docs : List String) (i j : Nat) (d : RankedDoc), j < docs.length →
      (fallbackFrom i docs).getD j d =
        { index := i + j, document := docs.getD j "",
          relevance_score := 1 - ((i + j : Nat) : ℚ) / 10 } := by
  intro docs
  induction docs with
  | nil => intro i j d h; simp at h
  | cons x docs ih =>
    intro i j d h
    cases j with
    | zero =>
      simp only [fallbackFrom, List.getD_cons_zero, Nat.add_zero]
    | succ j =>
      have h' : j < docs.length := by
        simp only [List.length_cons] at h
        omega
      have hrec := ih (i + 1) j d h'
      have harith : i + 1 + j = i + (j + 1) := by omega
      rw [harith] at hrec
      simp only [fallbackFrom, List.getD_cons_succ]
      exact hrec

lemma fallbackRerank_getD (documents : List String) (j : Nat) (d : RankedDoc)
    (h : j < documents.length) :
    (fallbackRerank documents).getD j d =
      { index := j, document := documents.getD j "",
        relevance_score := 1 - ((j : Nat) : ℚ) / 10 } := by
  have := fallbackFrom_getD documents 0 j d h
  simpa using this

lemma fallbackRerank_score_lt (documents : List String) (i j : Nat) (d : RankedDoc)
    (hij : i < j) (hj : j < documents.length) :
    ((fallbackRerank documents).getD j d).relevance_score <
      ((fallbackRerank documents).getD i d).relevance_score := by
  have hi : i < documents.length := lt_trans hij hj
  rw [fallbackRerank_getD documents j d hj, fallbackRerank_getD documents i d hi]
  have hq : ((i : ℚ)) < (j : ℚ) := by exact_mod_cast hij
  simp only
  linarith

lemma rerank_eq_fallback (configured : Bool) (outcome : RerankOutcome) (query : String)
    (documents : List String) (top_k : Option Nat)
    (h : configured = false ∨ ∃ msg, outcome = RerankOutcome.raises msg) :
    rerank configured outcome query documents top_k = fallbackRerank documents := by
  rcases h with rfl | ⟨msg, rfl⟩
  · rfl
  · cases configured <;> rfl

/-! ### Helper lemmas: the first-tier parse as a filter/map/dedup pipeline -/

lemma foldl_tier1Step_eq (lines : List String) :
    ∀ acc : List String,
      lines.foldl tier1Step acc =
        ((((lines.map pyStripS).filter tier1Keep).map tier1Extract).filter
            (fun q => !(q == ""))).foldl insertSeen acc := by
  induction lines with
  | nil => intro acc; rfl
  | cons l lines ih =>
    intro acc
    simp only [List.map_cons, List.foldl_cons]
    by_cases hk : tier1Keep (pyStripS l)
    · rw [List.filter_cons_of_pos hk]
      simp only [List.map_cons]
      by_cases hq : tier1Extract (pyStripS l) = ""
      · rw [List.filter_cons_of_neg (by simp [hq])]
        have hstep : tier1Step acc l = acc := by
          simp only [tier1Step, if_pos hk]
          rw [if_neg]
          intro hcon
          exact hcon.1 hq
        rw [hstep]
        exact ih acc
      · rw [List.filter_cons_of_pos (by simp [hq])]
        simp only [List.foldl_cons]
        have hstep : tier1Step acc l = insertSeen acc (tier1Extract (pyStripS l)) := by
          simp only [tier1Step, if_pos hk, insertSeen]
          by_cases hmem : tier1Extract (pyStripS l) ∈ acc
          · rw [if_neg (fun hcon => hcon.2 hmem), if_pos hmem]
          · rw [if_pos ⟨hq, hmem⟩, if_neg hmem]
        rw [hstep]
        exact ih _
    · rw [List.filter_cons_of_neg hk]
      have hstep : tier1Step acc l = acc := by
        simp only [tier1Step]
        rw [if_neg hk]
      rw [hstep]
      exact ih acc

lemma subqueriesTier1Parse_eq_model (text : String) :
    subqueriesTier1Parse text = tier1ParseModel text := by
  unfold subqueriesTier1Parse tier1ParseModel firstDedup
  exact foldl_tier1Step_eq (linesOf text) []

lemma subqueriesTier1Parse_nodup (text : String) : (subqueriesTier1Parse text).Nodup := by
  rw [subqueriesTier1Parse_eq_model]
  exact nodup_firstDedup _

/-! ### Helper lemmas: the multi-query search never raises once an index is loaded -/

lemma searchManyAux_ok (env : PipelineEnv) (k : Nat) (hidx : env.indexLoaded = true) :
    ∀ (qs : List String) (acc : List (String × List Doc)),
      ∃ res, searchManyAux env k qs acc = Except.ok res := by
  intro qs
  induction qs with
  | nil => intro acc; exact ⟨acc, rfl⟩
  | cons q qs ih =>
    intro acc
    have hs : vsSearch env q k = Except.ok (env.retrieve q k) := by
      simp [vsSearch, hidx]
    simp only [searchManyAux, hs]
    exact ih _

/-! ### Claim theorems -/

/-- Claim C3: for every query and document list, when the rerank service is
unconfigured or the service call raises any error, `rerank` returns the
documents in their original input order, entry `i` carrying index `i`,
document `dᵢ` and relevance score `1 - i/10`, the scores strictly decreasing
in `i` (and free to go non-positive for long lists). -/
theorem rerank_fallback_rank_stable (configured : Bool) (outcome : RerankOutcome)
    (query : String) (documents : List String) (top_k : Option Nat)
    (h : configured = false ∨ ∃ msg, outcome = RerankOutcome.raises msg) :
    rerank configured outcome query documents top_k = fallbackRerank documents
    ∧ (fallbackRerank documents).length = documents.length
    ∧ (∀ i d, i < documents.length →
        (fallbackRerank documents).getD i d =
          { index := i, document := documents.getD i "",
            relevance_score := 1 - (i : ℚ) / 10 })
    ∧ (∀ i j d, i < j → j < documents.length →
        ((fallbackRerank documents).getD j d).relevance_score <
          ((fallbackRerank documents).getD i d).relevance_score) := by
  refine ⟨rerank_eq_fallback configured outcome query documents top_k h,
    fallbackRerank_length documents, ?_, ?_⟩
  · intro i d hi
    exact fallbackRerank_getD documents i d hi
  · intro i j d hij hj
    exact fallbackRerank_score_lt documents i j d hij hj

/-- Witness for C3: the service-unconfigured fallback on `["a", "b"]`. -/
theorem rerank_fallback_rank_stable_witness :
    rerank false (RerankOutcome.returns []) "q" ["a", "b"] none = fallbackRerank ["a", "b"]
    ∧ (fallbackRerank ["a", "b"]).length = (["a", "b"] : List String).length
    ∧ (∀ i d, i < (["a", "b"] : List String).length →
        (fallbackRerank ["a", "b"]).getD i d =
          { index := i, document := (["a", "b"] : List String).getD i "",
            relevance_score := 1 - (i : ℚ) / 10 })
    ∧ (∀ i j d, i < j → j < (["a", "b"] : List String).length →
        ((fallbackRerank ["a", "b"]).getD j d).relevance_score <
          ((fallbackRerank ["a", "b"]).getD i d).relevance_score) :=
  rerank_fallback_rank_stable false (RerankOutcome.returns []) "q" ["a", "b"] none (Or.inl rfl)

/-- Claim C6 counterexample: with the service unconfigured and `top_k = 1`
given, the fallback returns 2 entries on a 2-document input — it ignores
`top_k` (there is no truncation on the fallback path), so "the fallback list
has at most top_k entries" is false. -/
theorem rerank_fallback_topk_counterexample :
    (rerank false (RerankOutcome.returns []) "q" ["a", "b"] (some 1)).length = 2
    ∧ ¬((rerank false (RerankOutcome.returns []) "q" ["a", "b"] (some 1)).length ≤ 1) := by
  constructor
  · rfl
  · decide

/-- Claim C6 amended: the fallback has the same record shape as a service
response (`index`, `document`, `relevance_score` fields), but it returns one
entry per input document regardless of `top_k`; its length is always the
input length, which may exceed `top_k`. -/
theorem rerank_fallback_length_amended (configured : Bool) (outcome : RerankOutcome)
    (query : String) (documents : List String) (top_k : Option Nat)
    (h : configured = false ∨ ∃ msg, outcome = RerankOutcome.raises msg) :
    (rerank configured outcome query documents top_k).length = documents.length := by
  rw [rerank_eq_fallback configured outcome query documents top_k h]
  exact fallbackRerank_length documents

/-- Witness for the amended C6. -/
theorem rerank_fallback_length_amended_witness :
    (rerank false (RerankOutcome.returns []) "qq" ["x", "y", "z"] (some 2)).length =
      (["x", "y", "z"] : List String).length :=
  rerank_fallback_length_amended false (RerankOutcome.returns []) "qq" ["x", "y", "z"]
    (some 2) (Or.inl rfl)

/-- Claim C4: `prepare_context` deduplicates fragments by exact text equality
across all subquery keys: a text occurring within the first `top_k` entries
under two different keys yields exactly one `[Chunk X]` block, where `X` is
the sequential label (starting at 1) assigned at the text's first occurrence
in mapping iteration order. -/
theorem prepare_context_dedup (reranked : List (String × List RankedDoc)) (top_k : Nat)
    (t q1 q2 : String) (r1 r2 : List RankedDoc)
    (hq : q1 ≠ q2) (h1 : (q1, r1) ∈ reranked) (h2 : (q2, r2) ∈ reranked)
    (ht1 : t ∈ (r1.take top_k).map RankedDoc.document)
    (ht2 : t ∈ (r2.take top_k).map RankedDoc.document) :
    (prepareContextBlocks reranked top_k).count
        (mkChunkLabel (firstIdx t (firstDedup (flatTexts top_k reranked)) + 1) t) = 1
    ∧ ∀ m, mkChunkLabel m t ∈ prepareContextBlocks reranked top_k →
        mkChunkLabel m t =
          mkChunkLabel (firstIdx t (firstDedup (flatTexts top_k reranked)) + 1) t := by
  have htf : t ∈ flatTexts top_k reranked := mem_flatTexts_of_mem top_k t reranked q1 r1 h1 ht1
  have htd : t ∈ firstDedup (flatTexts top_k reranked) := mem_firstDedup.mpr htf
  have hnd := nodup_firstDedup (flatTexts top_k reranked)
  have hcomm : firstIdx t (firstDedup (flatTexts top_k reranked)) + 1 =
      1 + firstIdx t (firstDedup (flatTexts top_k reranked)) := by omega
  rw [prepareContextBlocks_eq, hcomm]
  exact ⟨labelFrom_count_one _ 1 t hnd htd, fun m hm => labelFrom_mem_eq _ 1 m t hnd hm⟩

/-- Witness for C4: the same text under keys `"q1"` and `"q2"`. -/
theorem prepare_context_dedup_witness :
    (prepareContextBlocks [("q1", [⟨0, "t", 1⟩]), ("q2", [⟨0, "t", 1⟩])] 1).count
        (mkChunkLabel
          (firstIdx "t"
            (firstDedup (flatTexts 1 [("q1", [⟨0, "t", 1⟩]), ("q2", [⟨0, "t", 1⟩])])) + 1)
          "t") = 1
    ∧ ∀ m,
        mkChunkLabel m "t" ∈ prepareContextBlocks [("q1", [⟨0, "t", 1⟩]), ("q2", [⟨0, "t", 1⟩])] 1 →
        mkChunkLabel m "t" =
          mkChunkLabel
            (firstIdx "t"
              (firstDedup (flatTexts 1 [("q1", [⟨0, "t", 1⟩]), ("q2", [⟨0, "t", 1⟩])])) + 1)
            "t" :=
  prepare_context_dedup [("q1", [⟨0, "t", 1⟩]), ("q2", [⟨0, "t", 1⟩])] 1 "t" "q1" "q2"
    [⟨0, "t", 1⟩] [⟨0, "t", 1⟩] (by decide)
    (List.mem_cons_self _ _) (List.mem_cons_of_mem _ (List.mem_cons_self _ _))
    (by decide) (by decide)

/-- Claim C8: the number of `[Chunk X]` blocks emitted by `prepare_context`
is at most the minimum of (number of query keys × top_k) and (number of
distinct fragment texts across all queries). -/
theorem prepare_context_block_count (reranked : List (String × List RankedDoc)) (top_k : Nat) :
    (prepareContextBlocks reranked top_k).length ≤
      min (reranked.length * top_k) (allTexts reranked).toFinset.card := by
  rw [prepareContextBlocks_eq, labelFrom_length]
  refine le_min ?_ ?_
  · exact le_trans (length_firstDedup_le _) (flatTexts_length_le top_k reranked)
  · have hnd := nodup_firstDedup (flatTexts top_k reranked)
    rw [← List.toFinset_card_of_nodup hnd, toFinset_firstDedup]
    refine Finset.card_le_card ?_
    intro x hx
    rw [List.mem_toFinset] at hx ⊢
    exact mem_allTexts_of_mem_flatTexts top_k x reranked hx

/-- Claim C10: the context string depends only on the per-query sequences of
`document` text fields in mapping iteration order — `relevance_score` and
`index` fields are irrelevant, and no re-sorting by score takes place. -/
theorem prepare_context_text_determined (r1 r2 : List (String × List RankedDoc)) (top_k : Nat)
    (h : r1.map (fun p => p.2.map RankedDoc.document) =
         r2.map (fun p => p.2.map RankedDoc.document)) :
    prepare_context r1 top_k = prepare_context r2 top_k := by
  unfold prepare_context
  rw [prepareContextBlocks_eq, prepareContextBlocks_eq,
    flatTexts_eq_takeJoin, flatTexts_eq_takeJoin, h]

/-- Witness for C10: same texts, different scores and indices. -/
theorem prepare_context_text_determined_witness :
    prepare_context [("q", [⟨0, "d", 1⟩])] 1 = prepare_context [("q", [⟨7, "d", 0⟩])] 1 :=
  prepare_context_text_determined [("q", [⟨0, "d", 1⟩])] [("q", [⟨7, "d", 0⟩])] 1 rfl

/-- Unfolding of `generate_subqueries` in the configured case. -/
lemma generate_subqueries_true (resp1 resp2 rationales : String) (n : Nat) :
    generate_subqueries true resp1 resp2 rationales n =
      (if subqueriesTier1Parse (pyStripS resp1) = []
          ∨ (subqueriesTier1Parse (pyStripS resp1)).length < n
       then subqueriesTier2Parse (pyStripS resp2)
       else subqueriesTier1Parse (pyStripS resp1)).take n := rfl

/-- Claim C1 counterexample: with the generation service configured, a first
response with no recognisable list line and a retry response either without
`Query:` lines or with duplicated ones makes `generate_subqueries` return 0
entries, or duplicates — refuting "between 1 and n entries, no duplicates". -/
theorem generate_subqueries_counterexample :
    generate_subqueries true "x" "y" "r" 3 = []
    ∧ ¬(1 ≤ (generate_subqueries true "x" "y" "r" 3).length)
    ∧ generate_subqueries true "x" "Query: a\nQuery: a" "r" 3 = ["a", "a"]
    ∧ ¬(generate_subqueries true "x" "Query: a\nQuery: a" "r" 3).Nodup := by decide

/-- Claim C1 amended: `generate_subqueries` returns at most `n` entries; when
the service is unconfigured it returns exactly `[rationales]`; when the
first-tier parse yields at least `n` entries the result is exactly `n`
pairwise-distinct entries (so non-empty); only the second-tier retry path can
return fewer than one entry or duplicates. -/
theorem generate_subqueries_amended (resp1 resp2 rationales : String) (n : Nat)
    (hn : 1 ≤ n) :
    generate_subqueries false resp1 resp2 rationales n = [rationales]
    ∧ (generate_subqueries true resp1 resp2 rationales n).length ≤ n
    ∧ (n ≤ (subqueriesTier1Parse (pyStripS resp1)).length →
        generate_subqueries true resp1 resp2 rationales n =
            (subqueriesTier1Parse (pyStripS resp1)).take n
        ∧ (generate_subqueries true resp1 resp2 rationales n).Nodup
        ∧ (generate_subqueries true resp1 resp2 rationales n).length = n
        ∧ generate_subqueries true resp1 resp2 rationales n ≠ []) := by
  refine ⟨rfl, ?_, ?_⟩
  · rw [generate_subqueries_true]
    rw [List.length_take]
    exact min_le_left _ _
  · intro hlen
    have hne : ¬(subqueriesTier1Parse (pyStripS resp1) = []
        ∨ (subqueriesTier1Parse (pyStripS resp1)).length < n) := by
      rintro (he | hlt)
      · rw [he] at hlen
        simp at hlen
        omega
      · omega
    have heq : generate_subqueries true resp1 resp2 rationales n =
        (subqueriesTier1Parse (pyStripS resp1)).take n := by
      rw [generate_subqueries_true, if_neg hne]
    have hl : (generate_subqueries true resp1 resp2 rationales n).length = n := by
      rw [heq, List.length_take]
      exact Nat.min_eq_left hlen
    refine ⟨heq, ?_, hl, ?_⟩
    · rw [heq]
      exact List.Nodup.sublist (List.take_sublist n _) (subqueriesTier1Parse_nodup _)
    · intro hnil
      rw [hnil] at hl
      simp at hl
      omega

/-- Witness for the amended C1: a first response parsing to two entries. -/
theorem generate_subqueries_amended_witness :
    generate_subqueries false "1: a\n2: b" "y" "rat" 2 = ["rat"]
    ∧ (generate_subqueries true "1: a\n2: b" "y" "rat" 2).length ≤ 2
    ∧ (2 ≤ (subqueriesTier1Parse (pyStripS "1: a\n2: b")).length →
        generate_subqueries true "1: a\n2: b" "y" "rat" 2 =
            (subqueriesTier1Parse (pyStripS "1: a\n2: b")).take 2
        ∧ (generate_subqueries true "1: a\n2: b" "y" "rat" 2).Nodup
        ∧ (generate_subqueries true "1: a\n2: b" "y" "rat" 2).length = 2
        ∧ generate_subqueries true "1: a\n2: b" "y" "rat" 2 ≠ []) :=
  generate_subqueries_amended "1: a\n2: b" "y" "rat" 2 (by decide)

/-- Claim C5 counterexample: the line `"a1b"` does not look like a list item
under the claim's condition (no leading `-`/`*`, no leading digit, no `:`),
yet the code keeps it (a digit 1-9 anywhere in the first two characters
qualifies); and for `"q: a: b"` the code extracts the text after the *first*
colon, `"a: b"`, not the text after the *last* colon, `"b"`. -/
theorem tier1_parse_counterexample :
    subqueriesTier1Parse "a1b" = ["a1b"]
    ∧ claimListItem "a1b" = false
    ∧ subqueriesTier1Parse "q: a: b" = ["a: b"]
    ∧ afterLastColonTrim "q: a: b" = "b"
    ∧ ("a: b" : String) ≠ "b" := by decide

/-- Claim C5 amended: the first-tier parse keeps exactly the non-empty
(stripped) lines that start with `-` or `*`, contain a `:`, or have a digit
1-9 among their first two characters; when the line contains `:` it takes the
text after the *first* colon (other list markers are not stripped); it drops
entries that become empty and discards case-sensitive exact duplicates,
keeping first occurrences. -/
theorem tier1_parse_amended (text : String) :
    subqueriesTier1Parse text = tier1ParseModel text :=
  subqueriesTier1Parse_eq_model text

/-- Claim C2: after a successful initialize (an index is loaded), a
`process_query` call never raises when either or both service credentials are
absent: it returns `Except.ok` with a string, and when the generation
credential is missing that string is the Answerer's fixed sentinel. -/
theorem process_query_no_raise (env : PipelineEnv) (query : String)
    (hidx : env.indexLoaded = true)
    (hcred : env.openaiConfigured = false ∨ env.voyageConfigured = false) :
    ∃ r, process_query env query = Except.ok r
      ∧ (env.openaiConfigured = false →
          r = "Error: OPENAI_API_KEY not set. Please set the environment variable to generate responses.") := by
  obtain ⟨res, hres⟩ := searchManyAux_ok env TOP_N_INITIAL hidx
    (generate_subqueries env.openaiConfigured env.subqResp1 env.subqResp2
      (extract_rationales env.openaiConfigured env.rationaleResp query) NUM_SUBQUERIES) []
  refine ⟨generate_response env.openaiConfigured
    (env.genResp query (prepare_context
      (rerank_for_multiple_queries env (format_results_for_reranker res) none)
      TOP_K_RERANKED)), ?_, ?_⟩
  · simp only [process_query, search_for_multiple_queries]
    rw [hres]
  · intro h
    simp [generate_response, h]

/-- Witness for C2: a concrete environment with both credentials absent and a
loaded index. -/
theorem process_query_no_raise_witness :
    ∃ r,
      process_query
          ⟨false, false, true, fun _ _ => [], "", "", "",
            fun _ => RerankOutcome.returns [], fun _ _ => ""⟩ "hello" = Except.ok r
        ∧ r = "Error: OPENAI_API_KEY not set. Please set the environment variable to generate responses." := by
  obtain ⟨r, h1, h2⟩ :=
    process_query_no_raise
      ⟨false, false, true, fun _ _ => [], "", "", "",
        fun _ => RerankOutcome.returns [], fun _ _ => ""⟩ "hello" rfl (Or.inl rfl)
  exact ⟨r, h1, h2 rfl⟩

/-- Claim C7 counterexample: in the reranker-only variant, answering with
zero processed documents yields `Except.ok` with an error *string* — a normal
return value, not a raised error — refuting "surfaced as hard failures, never
masked as a normal return value, in every pipeline variant". -/
theorem rwr_zero_docs_counterexample :
    rwrProcessQuery (fun _ _ => "answer") [] false (RerankOutcome.returns []) "q" =
      Except.ok "Error: No documents have been processed. Please initialize the pipeline." := rfl

/-- Claim C7 amended: querying an unbuilt/unloaded index raises (ValueError,
from `VectorStore.search`) in the vector-store pipeline variants; but the
reranker-only variant masks the zero-processed-documents condition as a
normal string return instead of raising. -/
theorem programmer_error_amended (env : PipelineEnv) (q : String) (k : Nat)
    (gen : String → List CtxDoc → String) (v : Bool) (oc : RerankOutcome) (q2 : String)
    (h : env.indexLoaded = false) :
    vsSearch env q k = Except.error "No index to search. Create or load an index first."
    ∧ rwrProcessQuery gen [] v oc q2 =
        Except.ok "Error: No documents have been processed. Please initialize the pipeline." := by
  constructor
  · simp [vsSearch, h]
  · rfl

/-- Witness for the amended C7. -/
theorem programmer_error_amended_witness :
    vsSearch
        ⟨false, false, false, fun _ _ => [], "", "", "",
          fun _ => RerankOutcome.returns [], fun _ _ => ""⟩ "q" 10 =
      Except.error "No index to search. Create or load an index first."
    ∧ rwrProcessQuery (fun _ _ => "a") [] false (RerankOutcome.returns []) "p" =
        Except.ok "Error: No documents have been processed. Please initialize the pipeline." :=
  programmer_error_amended _ "q" 10 (fun _ _ => "a") false (RerankOutcome.returns []) "p" rfl

/-- Claim C9 counterexample: `initialize(reinitialize=True)` over an existing
persisted index with ingestion yielding zero documents deletes the index and
ingests but never reaches `create_index`/`save_index` — the "full rebuild
path (ingest, create_index, save_index)" is not always taken. -/
theorem reinit_counterexample :
    pipelineInitTrace true true true [] = [BuildStep.deletedIndex, BuildStep.ingested]
    ∧ BuildStep.createdIndex ∉ pipelineInitTrace true true true []
    ∧ BuildStep.savedIndex ∉ pipelineInitTrace true true true [] := by decide

/-- Claim C9 amended: with `reinitialize=True` and a persisted index present,
`initialize` always deletes the index and never takes the load path,
regardless of whether the index was valid; it then runs ingestion, followed
by `create_index` and `save_index` exactly when ingestion yields at least one
document. -/
theorem reinit_rebuild_amended (loadOk : Bool) (docs : List Doc) :
    BuildStep.loadedIndex ∉ pipelineInitTrace true true loadOk docs
    ∧ pipelineInitTrace true true loadOk docs =
        BuildStep.deletedIndex :: BuildStep.ingested ::
          (if docs = [] then [] else [BuildStep.createdIndex, BuildStep.savedIndex]) := by
  have htr : pipelineInitTrace true true loadOk docs =
      BuildStep.deletedIndex :: BuildStep.ingested ::
        (if docs = [] then [] else [BuildStep.createdIndex, BuildStep.savedIndex]) := by
    unfold pipelineInitTrace
    simp
  constructor
  · rw [htr]
    by_cases hd : docs = []
    · rw [if_pos hd]
      decide
    · rw [if_neg hd]
      decide
  · exact htr
